import Mathlib

/-!
Shallow embedding of the Cosmos request-signing core of this repository
(`sdk/cosmos/src/authorization_policy.rs`, `sdk/cosmos/src/authentication_policy.rs`,
`sdk/cosmos/src/clients/cosmos_client.rs`, `sdk/core/src/context.rs`).

Rust strings are modelled as `List Char`; byte strings as `List Nat`
(each element `< 256`).  The external crypto and encoding crates used by the
source (`ring` HMAC-SHA256, `base64`, `url::form_urlencoded`) are embedded by
their standard algorithms (FIPS 180-4, FIPS 198-1, RFC 4648,
`application/x-www-form-urlencoded` serialization as implemented by rust-url).
-/

set_option maxRecDepth 100000

/-- Rust `&str` / `String`, modelled as a list of characters. -/
abbrev Str := List Char

/-- Rust `str::to_lowercase` (on the ASCII data this code lowercases). -/
def toLowercase (s : Str) : Str := s.map Char.toLower

/-- UTF-8 encoding of one character (Rust `str::as_bytes` views the string as
its UTF-8 bytes). -/
def utf8EncodeChar (c : Char) : List Nat :=
  let n := c.toNat
  if n < 128 then [n]
  else if n < 2048 then [192 + n / 64, 128 + n % 64]
  else if n < 65536 then [224 + n / 4096, 128 + (n / 64) % 64, 128 + n % 64]
  else [240 + n / 262144, 128 + (n / 4096) % 64, 128 + (n / 64) % 64, 128 + n % 64]

/-- Rust `str::as_bytes`: the UTF-8 bytes of a string. -/
def utf8Encode (s : Str) : List Nat := s.foldr (fun c acc => utf8EncodeChar c ++ acc) []

/-! ## SHA-256 (FIPS 180-4), as computed by `ring::hmac` with `HMAC_SHA256` -/

/-- Reduce modulo 2^32 (32-bit machine arithmetic). -/
def m32 (x : Nat) : Nat := x % 4294967296

/-- Right-rotation of a 32-bit word. -/
def rotr (n x : Nat) : Nat := (x % 2 ^ n) * 2 ^ (32 - n) + x / 2 ^ n

/-- Bitwise complement of a 32-bit word. -/
def bnot32 (x : Nat) : Nat := 4294967295 - x

/-- The SHA-256 round constants (FIPS 180-4 section 4.2.2, in decimal). -/
def K256 : List Nat :=
  [1116352408, 1899447441, 3049323471, 3921009573, 961987163, 1508970993,
   2453635748, 2870763221, 3624381080, 310598401, 607225278, 1426881987,
   1925078388, 2162078206, 2614888103, 3248222580, 3835390401, 4022224774,
   264347078, 604807628, 770255983, 1249150122, 1555081692, 1996064986,
   2554220882, 2821834349, 2952996808, 3210313671, 3336571891, 3584528711,
   113926993, 338241895, 666307205, 773529912, 1294757372, 1396182291,
   1695183700, 1986661051, 2177026350, 2456956037, 2730485921, 2820302411,
   3259730800, 3345764771, 3516065817, 3600352804, 4094571909, 275423344,
   430227734, 506948616, 659060556, 883997877, 958139571, 1322822218,
   1537002063, 1747873779, 1955562222, 2024104815, 2227730452, 2361852424,
   2428436474, 2756734187, 3204031479, 3329325298]

/-- The SHA-256 working state (eight 32-bit words). -/
structure Sha256State where
  a : Nat
  b : Nat
  c : Nat
  d : Nat
  e : Nat
  f : Nat
  g : Nat
  h : Nat
deriving DecidableEq

/-- The SHA-256 initial hash value (FIPS 180-4 section 5.3.3, in decimal). -/
def sha256Init : Sha256State :=
  ⟨1779033703, 3144134277, 1013904242, 2773480762, 1359893119, 2600822924,
   528734635, 1541459225⟩

/-- One step of the SHA-256 message-schedule extension: append word `w[i]`
computed from `w[i-15]`, `w[i-2]`, `w[i-16]`, `w[i-7]`. -/
def schedStep (w : List Nat) : List Nat :=
  let i := w.length
  let w15 := w.getD (i - 15) 0
  let w2 := w.getD (i - 2) 0
  let w16 := w.getD (i - 16) 0
  let w7 := w.getD (i - 7) 0
  let s0 := rotr 7 w15 ^^^ rotr 18 w15 ^^^ w15 / 2 ^ 3
  let s1 := rotr 17 w2 ^^^ rotr 19 w2 ^^^ w2 / 2 ^ 10
  w ++ [m32 (w16 + s0 + w7 + s1)]

/-- Extend the 16 block words to the 64 schedule words (48 extension steps). -/
def extendW : Nat → List Nat → List Nat
  | 0, w => w
  | n + 1, w => extendW n (schedStep w)

/-- One SHA-256 compression round. -/
def sha256Round (st : Sha256State) (kw : Nat × Nat) : Sha256State :=
  let s1 := rotr 6 st.e ^^^ rotr 11 st.e ^^^ rotr 25 st.e
  let ch := (st.e &&& st.f) ^^^ (bnot32 st.e &&& st.g)
  let temp1 := m32 (st.h + s1 + ch + kw.1 + kw.2)
  let s0 := rotr 2 st.a ^^^ rotr 13 st.a ^^^ rotr 22 st.a
  let maj := (st.a &&& st.b) ^^^ (st.a &&& st.c) ^^^ (st.b &&& st.c)
  let temp2 := m32 (s0 + maj)
  ⟨m32 (temp1 + temp2), st.a, st.b, st.c, m32 (st.d + temp1), st.e, st.f, st.g⟩

/-- Compress one 512-bit block (given as 16 words) into the running state. -/
def sha256Compress (h0 : Sha256State) (block : List Nat) : Sha256State :=
  let w := extendW 48 block
  let st := (K256.zip w).foldl sha256Round h0
  ⟨m32 (h0.a + st.a), m32 (h0.b + st.b), m32 (h0.c + st.c), m32 (h0.d + st.d),
   m32 (h0.e + st.e), m32 (h0.f + st.f), m32 (h0.g + st.g), m32 (h0.h + st.h)⟩

/-- Big-endian 8-byte encoding of the bit length. -/
def lenBytes8 (n : Nat) : List Nat :=
  [n / 2 ^ 56 % 256, n / 2 ^ 48 % 256, n / 2 ^ 40 % 256, n / 2 ^ 32 % 256,
   n / 2 ^ 24 % 256, n / 2 ^ 16 % 256, n / 2 ^ 8 % 256, n % 256]

/-- SHA-256 padding: append `0x80`, zeros to 56 mod 64, and the 64-bit bit length. -/
def sha256Pad (msg : List Nat) : List Nat :=
  let len := msg.length
  let padLen := (64 + 56 - (len + 1) % 64) % 64
  msg ++ 128 :: (List.replicate padLen 0 ++ lenBytes8 (8 * len))

/-- Group a byte list into big-endian 32-bit words. -/
def bytesToWords : List Nat → List Nat
  | b0 :: b1 :: b2 :: b3 :: rest => (((b0 * 256 + b1) * 256 + b2) * 256 + b3) :: bytesToWords rest
  | _ => []

/-- Split a word list into blocks of 16 words (fuel-driven for kernel reduction). -/
def chunkWords : Nat → List Nat → List (List Nat)
  | 0, _ => []
  | _, [] => []
  | fuel + 1, ws => ws.take 16 :: chunkWords fuel (ws.drop 16)

/-- Emit a word list as big-endian bytes. -/
def wordsToBytes : List Nat → List Nat
  | [] => []
  | w :: rest => w / 2 ^ 24 % 256 :: w / 2 ^ 16 % 256 :: w / 2 ^ 8 % 256 :: w % 256 :: wordsToBytes rest

/-- SHA-256 of a byte string. -/
def sha256 (msg : List Nat) : List Nat :=
  let ws := bytesToWords (sha256Pad msg)
  let st := (chunkWords ws.length ws).foldl sha256Compress sha256Init
  wordsToBytes [st.a, st.b, st.c, st.d, st.e, st.f, st.g, st.h]

/-- HMAC-SHA256 (FIPS 198-1), the MAC computed by `ring::hmac::sign` with an
`HMAC_SHA256` key. -/
def hmacSha256 (key msg : List Nat) : List Nat :=
  let k0 := if 64 < key.length then sha256 key else key
  let kp := k0 ++ List.replicate (64 - k0.length) 0
  let ipadded := kp.map (fun b => b ^^^ 54)
  let opadded := kp.map (fun b => b ^^^ 92)
  sha256 (opadded ++ sha256 (ipadded ++ msg))



/-! ## Base64 (RFC 4648), as used by the `base64` crate's `encode`/`decode` -/

/-- The base64 standard alphabet. -/
def b64Alphabet : Str := "ABCDEFGHIJKLMNOPQRSTUVWXYZabcdefghijklmnopqrstuvwxyz0123456789+/".toList

/-- Character of a 6-bit value. -/
def b64Char (n : Nat) : Char := b64Alphabet.getD n 'A'

/-- Base64-encode a byte string (standard alphabet, with `=` padding), the
behaviour of `base64::encode`. -/
def base64Encode : List Nat → Str
  | b0 :: b1 :: b2 :: rest =>
      b64Char (b0 / 4) :: b64Char (b0 % 4 * 16 + b1 / 16) ::
      b64Char (b1 % 16 * 4 + b2 / 64) :: b64Char (b2 % 64) :: base64Encode rest
  | [b0, b1] =>
      [b64Char (b0 / 4), b64Char (b0 % 4 * 16 + b1 / 16), b64Char (b1 % 16 * 4), '=']
  | [b0] =>
      [b64Char (b0 / 4), b64Char (b0 % 4 * 16), '=', '=']
  | [] => []

/-- Value of a base64 alphabet character. -/
def b64Val (c : Char) : Option Nat :=
  if 'A' ≤ c ∧ c ≤ 'Z' then some (c.toNat - 65)
  else if 'a' ≤ c ∧ c ≤ 'z' then some (c.toNat - 97 + 26)
  else if '0' ≤ c ∧ c ≤ '9' then some (c.toNat - 48 + 52)
  else if c = '+' then some 62
  else if c = '/' then some 63
  else none

/-- Decode a padding-stripped base64 string. -/
def base64DecodeCore : Str → Option (List Nat)
  | [] => some []
  | [_] => none
  | [c0, c1] => do
      let v0 ← b64Val c0
      let v1 ← b64Val c1
      pure [v0 * 4 + v1 / 16]
  | [c0, c1, c2] => do
      let v0 ← b64Val c0
      let v1 ← b64Val c1
      let v2 ← b64Val c2
      pure [v0 * 4 + v1 / 16, v1 % 16 * 16 + v2 / 4]
  | c0 :: c1 :: c2 :: c3 :: rest => do
      let v0 ← b64Val c0
      let v1 ← b64Val c1
      let v2 ← b64Val c2
      let v3 ← b64Val c3
      let tail ← base64DecodeCore rest
      pure ((v0 * 4 + v1 / 16) :: (v1 % 16 * 16 + v2 / 4) :: (v2 % 4 * 64 + v3) :: tail)

/-- Base64-decode (standard alphabet, trailing `=` padding allowed), the
behaviour of `base64::decode` on the inputs this code feeds it. -/
def base64Decode (s : Str) : Option (List Nat) :=
  base64DecodeCore (s.takeWhile (fun c => c ≠ '='))



/-! ## `application/x-www-form-urlencoded` byte serialization (rust-url) -/

/-- Hex digit (uppercase), as `form_urlencoded` percent-escapes produce. -/
def hexDigit (n : Nat) : Char := ("0123456789ABCDEF".toList).getD n '0'

/-- One byte of `form_urlencoded::byte_serialize`: ASCII alphanumerics and
`*`, `-`, `.`, `_` pass through, space becomes `+`, all else `%XX`. -/
def formUrlEncodeByte (b : Nat) : Str :=
  if b = 32 then ['+']
  else if (48 ≤ b ∧ b ≤ 57) ∨ (65 ≤ b ∧ b ≤ 90) ∨ (97 ≤ b ∧ b ≤ 122)
       ∨ b = 42 ∨ b = 45 ∨ b = 46 ∨ b = 95 then [Char.ofNat b]
  else ['%', hexDigit (b / 16), hexDigit (b % 16)]

/-- `form_urlencoded::byte_serialize(..).collect::<String>()`. -/
def formUrlEncodeBytes (bs : List Nat) : Str :=
  bs.foldr (fun b acc => formUrlEncodeByte b ++ acc) []


/-! ## Domain data types -/

/-- `ResourceType` (from `sdk/cosmos/src/resources`); the ten variants are the
ones matched in `string_to_sign`. -/
inductive ResourceType
  | Databases
  | Collections
  | Documents
  | StoredProcedures
  | Users
  | Permissions
  | Attachments
  | PartitionKeyRanges
  | UserDefinedFunctions
  | Triggers
deriving DecidableEq

/-- `http::Method`: the nine named standard methods plus extension methods
(the wildcard arm of the `string_to_sign` match). -/
inductive Method
  | GET
  | PUT
  | POST
  | DELETE
  | HEAD
  | TRACE
  | OPTIONS
  | CONNECT
  | PATCH
  | extension (name : Str)
deriving DecidableEq

/-- The verb string of a method (`http::Method::as_str`), used to interpret
the spec's `lower(verb)`. -/
def methodName : Method → Str
  | .GET => "GET".toList
  | .PUT => "PUT".toList
  | .POST => "POST".toList
  | .DELETE => "DELETE".toList
  | .HEAD => "HEAD".toList
  | .TRACE => "TRACE".toList
  | .OPTIONS => "OPTIONS".toList
  | .CONNECT => "CONNECT".toList
  | .PATCH => "PATCH".toList
  | .extension s => s

/-- Modelled from the spec: `AuthorizationToken`
(`sdk/cosmos/src/resources/permission`, not under `src/`) is a tagged
variant — `Primary(secret key bytes)` or `Resource(opaque token string)`. -/
inductive AuthorizationToken
  | Primary (key : List Nat)
  | Resource (token : Str)
deriving DecidableEq

/-- Modelled from the spec: `AuthorizationToken::primary_from_base64`
(`sdk/cosmos/src/resources/permission`, not under `src/`) base64-decodes the
account master key; a malformed key fails. -/
def primary_from_base64 (s : Str) : Option AuthorizationToken :=
  (base64Decode s).map .Primary

/-! ## `sdk/cosmos/src/authorization_policy.rs` -/

/-- `const AZURE_VERSION: &str = "2018-12-31"`. -/
def AZURE_VERSION : Str := "2018-12-31".toList

/-- `const VERSION: &str = "1.0"`. -/
def VERSION : Str := "1.0".toList

/-- `static ENDING_STRINGS` in `generate_resource_link`. -/
def ENDING_STRINGS : List Str :=
  ["dbs".toList, "colls".toList, "docs".toList, "sprocs".toList, "users".toList,
   "permissions".toList, "attachments".toList, "pkranges".toList, "udfs".toList,
   "triggers".toList]

/-- The `for str_to_match in ENDING_STRINGS` loop of `generate_resource_link`:
`p[a..b]` is `(p.drop a).take (b - a)` (the code's indices stay on character
boundaries for the ASCII paths this SDK builds). -/
def resourceLinkLoop (p : Str) : List Str → Str
  | [] => p
  | s :: rest =>
    let len := p.length
    let end_len := s.length
    if end_len ≤ len then
      if p.drop (len - end_len) = s then
        if len = end_len then []
        else if (p.drop (len - end_len - 1)).take 1 = ['/'] then p.take (len - end_len - 1)
        else resourceLinkLoop p rest
      else resourceLinkLoop p rest
    else resourceLinkLoop p rest

/-- `fn generate_resource_link(u: &str) -> &str`. -/
def generate_resource_link (u : Str) : Str := resourceLinkLoop u ENDING_STRINGS

/-- `fn string_to_sign(http_method, rt, resource_link, time) -> String`:
`format!("{}\n{}\n{}\n{}\n\n", <verb match>, <resource-type match>,
resource_link, time.to_lowercase())`. -/
def string_to_sign (http_method : Method) (rt : ResourceType) (resource_link : Str)
    (time : Str) : Str :=
  (match http_method with
    | .GET => "get".toList
    | .PUT => "put".toList
    | .POST => "post".toList
    | .DELETE => "delete".toList
    | .HEAD => "head".toList
    | .TRACE => "trace".toList
    | .OPTIONS => "options".toList
    | .CONNECT => "connect".toList
    | .PATCH => "patch".toList
    | .extension _ => "extension".toList) ++
  '\n' ::
  (match rt with
    | .Databases => "dbs".toList
    | .Collections => "colls".toList
    | .Documents => "docs".toList
    | .StoredProcedures => "sprocs".toList
    | .Users => "users".toList
    | .Permissions => "permissions".toList
    | .Attachments => "attachments".toList
    | .PartitionKeyRanges => "pkranges".toList
    | .UserDefinedFunctions => "udfs".toList
    | .Triggers => "triggers".toList) ++
  '\n' :: resource_link ++ '\n' :: toLowercase time ++ ['\n', '\n']

/-- `fn encode_str_to_sign(str_to_sign: &str, key: &[u8]) -> String`:
HMAC-SHA256 with the key, then base64-encode the MAC. -/
def encode_str_to_sign (str_to_sign : Str) (key : List Nat) : Str :=
  base64Encode (hmacSha256 key (utf8Encode str_to_sign))

/-- `fn generate_authorization(auth_token, http_method, resource_type,
resource_link, time) -> String`: build
`type=<master|resource>&ver=<VERSION>&sig=<signature>` and form-urlencode its
UTF-8 bytes. -/
def generate_authorization (auth_token : AuthorizationToken) (http_method : Method)
    (resource_type : ResourceType) (resource_link : Str) (time : Str) : Str :=
  let sts := string_to_sign http_method resource_type resource_link time
  let str_unencoded :=
    "type=".toList ++
    (match auth_token with
      | .Primary _ => "master".toList
      | .Resource _ => "resource".toList) ++
    "&ver=".toList ++ VERSION ++ "&sig=".toList ++
    (match auth_token with
      | .Primary key => encode_str_to_sign sts key
      | .Resource key => key)
  formUrlEncodeBytes (utf8Encode str_unencoded)

/-! ## Timestamp formatting

`TIME_FORMAT = "%a, %d %h %Y %T GMT"`: the policy formats the current UTC
time with chrono (external crate); this embeds that format string for
proleptic-Gregorian dates (`%a` weekday abbreviation via Zeller's congruence,
`%d` zero-padded day, `%h` month abbreviation, `%Y` year, `%T` `HH:MM:SS`). -/

/-- Two-digit zero-padded decimal. -/
def pad2 (n : Nat) : Str := if n < 10 then '0' :: Nat.toDigits 10 n else Nat.toDigits 10 n

/-- Abbreviated month name (`%h`). -/
def monthAbbrev (m : Nat) : Str :=
  (["Jan", "Feb", "Mar", "Apr", "May", "Jun", "Jul", "Aug", "Sep", "Oct", "Nov",
    "Dec"].map (fun s => s.toList)).getD (m - 1) []

/-- Abbreviated weekday name (`%a`), by Zeller's congruence. -/
def weekdayAbbrev (y m d : Nat) : Str :=
  let mm := if m < 3 then m + 12 else m
  let yy := if m < 3 then y - 1 else y
  let k := yy % 100
  let j := yy / 100
  let h := (d + 13 * (mm + 1) / 5 + k + k / 4 + j / 4 + 5 * j) % 7
  (["Sat", "Sun", "Mon", "Tue", "Wed", "Thu", "Fri"].map (fun s => s.toList)).getD h []

/-- `chrono::Utc` time rendered with `TIME_FORMAT` (`%a, %d %h %Y %T GMT`). -/
def formatTimeRfc1123Gmt (y mo d h mi s : Nat) : Str :=
  weekdayAbbrev y mo d ++ ", ".toList ++ pad2 d ++ ' ' :: monthAbbrev mo ++ ' ' ::
  Nat.toDigits 10 y ++ ' ' :: pad2 h ++ ':' :: pad2 mi ++ ':' :: pad2 s ++ " GMT".toList





/-! ## `sdk/cosmos/src/clients/cosmos_client.rs` (duplicated signing helpers)

The client file carries its own copies of the four signing helpers for the
legacy `prepare_request` path; they are embedded separately so that their
agreement with the pipeline versions is a theorem, not an assumption. -/

namespace cosmos_client

/-- `const AZURE_VERSION: &str = "2018-12-31"` (cosmos_client.rs copy). -/
def AZURE_VERSION : Str := "2018-12-31".toList

/-- `const VERSION: &str = "1.0"` (cosmos_client.rs copy). -/
def VERSION : Str := "1.0".toList

/-- `static ENDING_STRINGS` in the cosmos_client.rs `generate_resource_link`. -/
def ENDING_STRINGS : List Str :=
  ["dbs".toList, "colls".toList, "docs".toList, "sprocs".toList, "users".toList,
   "permissions".toList, "attachments".toList, "pkranges".toList, "udfs".toList,
   "triggers".toList]

/-- The keyword loop of the cosmos_client.rs `generate_resource_link`. -/
def resourceLinkLoop (p : Str) : List Str → Str
  | [] => p
  | s :: rest =>
    let len := p.length
    let end_len := s.length
    if end_len ≤ len then
      if p.drop (len - end_len) = s then
        if len = end_len then []
        else if (p.drop (len - end_len - 1)).take 1 = ['/'] then p.take (len - end_len - 1)
        else resourceLinkLoop p rest
      else resourceLinkLoop p rest
    else resourceLinkLoop p rest

/-- `fn generate_resource_link` (cosmos_client.rs copy). -/
def generate_resource_link (u : Str) : Str := resourceLinkLoop u ENDING_STRINGS

/-- `fn string_to_sign` (cosmos_client.rs copy; takes `rt` by value). -/
def string_to_sign (http_method : Method) (rt : ResourceType) (resource_link : Str)
    (time : Str) : Str :=
  (match http_method with
    | .GET => "get".toList
    | .PUT => "put".toList
    | .POST => "post".toList
    | .DELETE => "delete".toList
    | .HEAD => "head".toList
    | .TRACE => "trace".toList
    | .OPTIONS => "options".toList
    | .CONNECT => "connect".toList
    | .PATCH => "patch".toList
    | .extension _ => "extension".toList) ++
  '\n' ::
  (match rt with
    | .Databases => "dbs".toList
    | .Collections => "colls".toList
    | .Documents => "docs".toList
    | .StoredProcedures => "sprocs".toList
    | .Users => "users".toList
    | .Permissions => "permissions".toList
    | .Attachments => "attachments".toList
    | .PartitionKeyRanges => "pkranges".toList
    | .UserDefinedFunctions => "udfs".toList
    | .Triggers => "triggers".toList) ++
  '\n' :: resource_link ++ '\n' :: toLowercase time ++ ['\n', '\n']

/-- `fn encode_str_to_sign` (cosmos_client.rs copy). -/
def encode_str_to_sign (str_to_sign : Str) (key : List Nat) : Str :=
  base64Encode (hmacSha256 key (utf8Encode str_to_sign))

/-- `fn generate_authorization` (cosmos_client.rs copy). -/
def generate_authorization (auth_token : AuthorizationToken) (http_method : Method)
    (resource_type : ResourceType) (resource_link : Str) (time : Str) : Str :=
  let sts := string_to_sign http_method resource_type resource_link time
  let str_unencoded :=
    "type=".toList ++
    (match auth_token with
      | .Primary _ => "master".toList
      | .Resource _ => "resource".toList) ++
    "&ver=".toList ++ VERSION ++ "&sig=".toList ++
    (match auth_token with
      | .Primary key => encode_str_to_sign sts key
      | .Resource key => key)
  formUrlEncodeBytes (utf8Encode str_unencoded)

end cosmos_client

/-! ## The pipeline model: URIs, requests, headers, context, policies -/

/-- The relevant shape of `http::Uri`: a path (with its leading `/`) and an
optional query string. -/
structure Uri where
  path : Str
  query : Option Str
deriving DecidableEq

/-- `request.uri().path_and_query().unwrap().to_string()`: the path followed
by `?query` when a query is present. -/
def Uri.path_and_query (u : Uri) : Str :=
  u.path ++ (match u.query with | none => [] | some q => '?' :: q)

/-- `azure_core::Request`: method, URI, header multimap, byte body. -/
structure Request where
  method : Method
  uri : Uri
  headers : List (Str × Str)
  body : List Nat
deriving DecidableEq

/-- `HeaderMap::remove`: drop every value stored under the name. -/
def headersRemove (k : Str) (hs : List (Str × Str)) : List (Str × Str) :=
  hs.filter (fun p => !(p.1 == k))

/-- `HeaderMap::append`: add a value at the end, keeping existing entries. -/
def headersAppend (k v : Str) (hs : List (Str × Str)) : List (Str × Str) :=
  hs ++ [(k, v)]

/-- `http::HeaderValue` validity: visible ASCII, space, or horizontal tab. -/
def validHeaderChar (c : Char) : Bool :=
  (32 ≤ c.toNat && c.toNat < 127) || c.toNat == 9

/-- `HeaderValue::from_str`, `None` standing for its error. -/
def headerValueFromStr (s : Str) : Option Str :=
  if s.all validHeaderChar then some s else none

/-- Modelled from the spec: the date header name `HEADER_DATE` from
`crate::headers` (declared outside `src/`); the spec calls it "a date
header". Only its identity relative to the other two names matters here. -/
def HEADER_DATE : Str := "x-ms-date".toList

/-- Modelled from the spec: the API-version header name `HEADER_VERSION` from
`crate::headers` (declared outside `src/`). -/
def HEADER_VERSION : Str := "x-ms-version".toList

/-- `http::header::AUTHORIZATION`. -/
def AUTHORIZATION : Str := "authorization".toList

/-- A type-erased bag value (`Arc<dyn Bag>`); `AuthorizationPolicy::send`
downcasts the `"resource_type"` entry to `ResourceType`, and `other` stands
for every value of a different runtime type. -/
inductive BagValue
  | resourceType (rt : ResourceType)
  | other (tag : Nat)
deriving DecidableEq

/-- `azure_core::Context` (`sdk/core/src/context.rs`): a map from string keys
to type-erased shared values. -/
abbrev Context := List (Str × BagValue)

/-- `Context::get_from_bag`. -/
def Context.get_from_bag (ctx : Context) (k : Str) : Option BagValue :=
  (ctx.find? (fun p => p.1 == k)).map (fun p => p.2)

/-- `AuthorizationPolicy` (`authorization_policy.rs`): holds the token it was
configured with. -/
structure AuthorizationPolicy where
  authorization_token : AuthorizationToken
deriving DecidableEq

/-- `AuthenticationPolicy` (`authentication_policy.rs`). -/
structure AuthenticationPolicy where
  authorization_token : AuthorizationToken
deriving DecidableEq

/-- Outcome of one policy `send` step: delegate to `next[0]` with the
(possibly rewritten) request, return a structured error, or panic. -/
inductive SendOutcome
  | delegated (req : Request)
  | errInvalidTailPolicy (p : AuthorizationPolicy)
  | errInvalidHeaderValue
  | panicked
deriving DecidableEq

/-- The string `AuthorizationPolicy::send` canonicalizes:
`&request.uri().path_and_query().unwrap().to_string()[1..]`. -/
def uriPathOfRequest (request : Request) : Str :=
  request.uri.path_and_query.drop 1

/-- `AuthorizationPolicy::send` (`authorization_policy.rs`), with the clock
passed explicitly (`now` is `chrono::Utc::now()` rendered with `TIME_FORMAT`)
and the tail call `next[0].send(..)` abstracted to `.delegated` carrying the
rewritten request.  The `expect` calls on the context bag are `.panicked`. -/
def AuthorizationPolicy.send (self : AuthorizationPolicy) (ctx : Context)
    (request : Request) (now : Str) (nextLen : Nat) : SendOutcome :=
  if nextLen = 0 then .errInvalidTailPolicy self
  else
    match ctx.get_from_bag "resource_type".toList with
    | none => .panicked
    | some (.other _) => .panicked
    | some (.resourceType resource_type) =>
      let time := now
      let uri_path := uriPathOfRequest request
      let resource_link := generate_resource_link uri_path
      let auth := generate_authorization self.authorization_token request.method
        resource_type resource_link time
      let hs := headersRemove AUTHORIZATION
        (headersRemove HEADER_VERSION (headersRemove HEADER_DATE request.headers))
      match headerValueFromStr time with
      | none => .errInvalidHeaderValue
      | some timeVal =>
        let hs1 := headersAppend HEADER_DATE timeVal hs
        let hs2 := headersAppend HEADER_VERSION AZURE_VERSION hs1
        match headerValueFromStr auth with
        | none => .errInvalidHeaderValue
        | some authVal =>
          .delegated { request with headers := headersAppend AUTHORIZATION authVal hs2 }

/-- `AuthenticationPolicy::send` (`authentication_policy.rs`): it performs no
empty-chain check; `next[0]` on an empty slice panics (the code's own comment
says "this will panic if there are no more following policies"). -/
def AuthenticationPolicy.send (_self : AuthenticationPolicy) (_ctx : Context)
    (request : Request) (nextLen : Nat) : SendOutcome :=
  if nextLen = 0 then .panicked else .delegated request

/-- The spec's resource-kind keyword function (`keyword(resource_kind)`),
used to state the claims about `string_to_sign`. -/
def resourceTypeKeyword : ResourceType → Str
  | .Databases => "dbs".toList
  | .Collections => "colls".toList
  | .Documents => "docs".toList
  | .StoredProcedures => "sprocs".toList
  | .Users => "users".toList
  | .Permissions => "permissions".toList
  | .Attachments => "attachments".toList
  | .PartitionKeyRanges => "pkranges".toList
  | .UserDefinedFunctions => "udfs".toList
  | .Triggers => "triggers".toList

/-- The entries stored under one name, in order (`HeaderMap::get_all`). -/
def headersFilter (k : Str) (hs : List (Str × Str)) : List (Str × Str) :=
  hs.filter (fun p => p.1 == k)

/-! ## Lemmas about the `generate_resource_link` keyword loop -/

/-- A successful `sm == *str_to_match` check means the keyword is a suffix. -/
lemma suffix_of_drop_eq {p s : Str} (h : p.drop (p.length - s.length) = s) : s <:+ p :=
  h ▸ List.drop_suffix _ _

/-- When the path is `q ++ "/" ++ kw` for a keyword `kw` of the list (no list
keyword a suffix of another), the loop strips the trailing `/kw`. -/
lemma resourceLinkLoop_strip {L : List Str} {p q kw : Str} (hkw : kw ∈ L)
    (hns : ∀ a ∈ L, ∀ b ∈ L, a ≠ b → ¬ a <:+ b)
    (hp : p = q ++ '/' :: kw) : resourceLinkLoop p L = q := by
  have hpq : p = (q ++ ['/']) ++ kw := by rw [hp, List.append_cons]
  have hsufkw : kw <:+ p := ⟨q ++ ['/'], hpq.symm⟩
  have hlen : p.length = q.length + 1 + kw.length := by
    rw [hpq]; simp only [List.length_append, List.length_cons, List.length_nil]; try omega
  induction L with
  | nil => cases hkw
  | cons s rest ih =>
    by_cases hs : s = kw
    · subst hs
      have c1 : s.length ≤ p.length := by omega
      have c2 : p.drop (p.length - s.length) = s := by
        have hd := List.drop_left (q ++ ['/']) s
        rw [← hpq] at hd
        have hq : p.length - s.length = (q ++ ['/']).length := by
          simp only [List.length_append, List.length_cons, List.length_nil]; try omega
        rw [hq]
        exact hd
      have c3 : ¬ p.length = s.length := by omega
      have hq1 : p.length - s.length - 1 = q.length := by omega
      have hd1 := List.drop_left q ('/' :: s)
      rw [← hp] at hd1
      have c4 : (p.drop (p.length - s.length - 1)).take 1 = ['/'] := by
        rw [hq1, hd1]
        rfl
      have ht1 := List.take_left q ('/' :: s)
      rw [← hp] at ht1
      have c5 : p.take (p.length - s.length - 1) = q := by
        rw [hq1]
        exact ht1
      simp only [resourceLinkLoop]
      rw [if_pos c1, if_pos c2, if_neg c3, if_pos c4]
      exact c5
    · have hkw' : kw ∈ rest := by
        rcases List.mem_cons.1 hkw with h | h
        · exact absurd h.symm hs
        · exact h
      have hns' : ∀ a ∈ rest, ∀ b ∈ rest, a ≠ b → ¬ a <:+ b := fun a ha b hb =>
        hns a (List.mem_cons_of_mem _ ha) b (List.mem_cons_of_mem _ hb)
      have hnotdrop : ¬ p.drop (p.length - s.length) = s := by
        intro h2
        have hsufs : s <:+ p := suffix_of_drop_eq h2
        rcases List.suffix_or_suffix_of_suffix hsufs hsufkw with h | h
        · exact hns s (List.mem_cons_self _ _) kw hkw hs h
        · exact hns kw hkw s (List.mem_cons_self _ _) (Ne.symm hs) h
      simp only [resourceLinkLoop]
      by_cases c1 : s.length ≤ p.length
      · rw [if_pos c1, if_neg hnotdrop]
        exact ih hkw' hns'
      · rw [if_neg c1]
        exact ih hkw' hns'

/-- When the path itself is a keyword of the list, the loop returns `""`. -/
lemma resourceLinkLoop_exact {L : List Str} {p : Str} (hp : p ∈ L)
    (hns : ∀ a ∈ L, ∀ b ∈ L, a ≠ b → ¬ a <:+ b) : resourceLinkLoop p L = [] := by
  induction L with
  | nil => cases hp
  | cons s rest ih =>
    by_cases hs : s = p
    · subst hs
      simp [resourceLinkLoop]
    · have hp' : p ∈ rest := by
        rcases List.mem_cons.1 hp with h | h
        · exact absurd h.symm hs
        · exact h
      have hns' : ∀ a ∈ rest, ∀ b ∈ rest, a ≠ b → ¬ a <:+ b := fun a ha b hb =>
        hns a (List.mem_cons_of_mem _ ha) b (List.mem_cons_of_mem _ hb)
      have hnotdrop : ¬ p.drop (p.length - s.length) = s := by
        intro h2
        exact hns s (List.mem_cons_self _ _) p hp hs (suffix_of_drop_eq h2)
      simp only [resourceLinkLoop]
      by_cases c1 : s.length ≤ p.length
      · rw [if_pos c1, if_neg hnotdrop]
        exact ih hp' hns'
      · rw [if_neg c1]
        exact ih hp' hns'

/-- When no keyword of the list is the path's trailing segment, the loop
returns the path unchanged. -/
lemma resourceLinkLoop_id {L : List Str} {p : Str}
    (h1 : ∀ kw ∈ L, ¬ ('/' :: kw) <:+ p) (h2 : ∀ kw ∈ L, p ≠ kw) :
    resourceLinkLoop p L = p := by
  induction L with
  | nil => rfl
  | cons s rest ih =>
    have h1' : ∀ kw ∈ rest, ¬ ('/' :: kw) <:+ p := fun kw hkw =>
      h1 kw (List.mem_cons_of_mem _ hkw)
    have h2' : ∀ kw ∈ rest, p ≠ kw := fun kw hkw => h2 kw (List.mem_cons_of_mem _ hkw)
    simp only [resourceLinkLoop]
    by_cases c1 : s.length ≤ p.length
    · by_cases c2 : p.drop (p.length - s.length) = s
      · have hsuf : s <:+ p := suffix_of_drop_eq c2
        have c3 : ¬ p.length = s.length := by
          intro hlen
          exact h2 s (List.mem_cons_self _ _) (hsuf.eq_of_length hlen.symm).symm
        have hlt : s.length < p.length := lt_of_le_of_ne c1 (fun h => c3 h.symm)
        have c4 : ¬ (p.drop (p.length - s.length - 1)).take 1 = ['/'] := by
          intro htake
          apply h1 s (List.mem_cons_self _ _)
          have hsplit := List.take_append_drop 1 (p.drop (p.length - s.length - 1))
          rw [htake, List.drop_drop] at hsplit
          rw [show p.length - s.length - 1 + 1 = p.length - s.length from by omega] at hsplit
          rw [c2] at hsplit
          have hsplit2 : p.drop (p.length - s.length - 1) = '/' :: s := by
            simpa using hsplit.symm
          exact hsplit2 ▸ List.drop_suffix (p.length - s.length - 1) p
        rw [if_pos c1, if_pos c2, if_neg c3, if_neg c4]
        exact ih h1' h2'
      · rw [if_pos c1, if_neg c2]
        exact ih h1' h2'
    · rw [if_neg c1]
      exact ih h1' h2'

/-- No keyword of `ENDING_STRINGS` is a suffix of a different one, so at most
one keyword can be the trailing segment of a path. -/
lemma ending_strings_no_mutual_suffix :
    ∀ a ∈ ENDING_STRINGS, ∀ b ∈ ENDING_STRINGS, a ≠ b → ¬ a <:+ b := by decide

/-- C2: for every path, `generate_resource_link` strips a trailing
`/keyword` for the ten resource-kind keywords, maps a bare keyword to the
empty string, and returns every other path unchanged. -/
theorem generate_resource_link_spec (p : Str) :
    (∀ q kw, kw ∈ ENDING_STRINGS → p = q ++ '/' :: kw → generate_resource_link p = q) ∧
    (p ∈ ENDING_STRINGS → generate_resource_link p = []) ∧
    ((∀ kw ∈ ENDING_STRINGS, ¬ ('/' :: kw) <:+ p) → p ∉ ENDING_STRINGS →
      generate_resource_link p = p) := by
  refine ⟨fun q kw hkw hp => ?_, fun hp => ?_, fun h1 h2 => ?_⟩
  · exact resourceLinkLoop_strip hkw ending_strings_no_mutual_suffix hp
  · exact resourceLinkLoop_exact hp ending_strings_no_mutual_suffix
  · exact resourceLinkLoop_id h1 (fun kw hkw heq => h2 (heq ▸ hkw))

/-- Witness for C2 at the spec's own examples: `"dbs"` maps to the empty
string, `"colls/second/third"` is unchanged, and `"dbs/MyDatabase/colls"`
loses its trailing `/colls`. -/
theorem generate_resource_link_spec_witness :
    (("dbs".toList ∈ ENDING_STRINGS) ∧ generate_resource_link "dbs".toList = []) ∧
    ((∀ kw ∈ ENDING_STRINGS, ¬ ('/' :: kw) <:+ "colls/second/third".toList) ∧
      "colls/second/third".toList ∉ ENDING_STRINGS ∧
      generate_resource_link "colls/second/third".toList = "colls/second/third".toList) ∧
    ("dbs/MyDatabase/colls".toList = "dbs/MyDatabase".toList ++ '/' :: "colls".toList ∧
      generate_resource_link "dbs/MyDatabase/colls".toList = "dbs/MyDatabase".toList) :=
  ⟨⟨by decide, (generate_resource_link_spec _).2.1 (by decide)⟩,
   ⟨by decide, by decide, (generate_resource_link_spec _).2.2 (by decide) (by decide)⟩,
   ⟨by decide, (generate_resource_link_spec _).1 "dbs/MyDatabase".toList "colls".toList
      (by decide) (by decide)⟩⟩

/-- C1 (corrected part): with an empty remaining-policies slice,
`AuthorizationPolicy::send` returns `InvalidTailPolicy` identifying itself
before touching the context or the request, while `AuthenticationPolicy::send`
indexes `next[0]` and panics. -/
theorem empty_tail_policy_behaviour :
    (∀ (self : AuthorizationPolicy) (ctx : Context) (req : Request) (now : Str),
        AuthorizationPolicy.send self ctx req now 0 = .errInvalidTailPolicy self) ∧
    (∀ (self : AuthenticationPolicy) (ctx : Context) (req : Request),
        AuthenticationPolicy.send self ctx req 0 = .panicked) :=
  ⟨fun _ _ _ _ => rfl, fun _ _ _ => rfl⟩

/-- Counterexample to C1 as stated: `AuthenticationPolicy::send` with an
empty remaining-chain panics instead of returning `InvalidTailPolicy`. -/
theorem authentication_policy_empty_tail_cex :
    AuthenticationPolicy.send ⟨.Resource "t".toList⟩ []
        ⟨.GET, ⟨"/dbs".toList, none⟩, [], []⟩ 0 = .panicked ∧
    (SendOutcome.panicked ≠ .errInvalidTailPolicy ⟨.Resource "t".toList⟩) := by
  exact ⟨rfl, by decide⟩

/-- C3: the two fixed test vectors of `cosmos_client.rs` — base64-decode the
master key, HMAC-SHA256 the string-to-sign, base64-encode the MAC and
form-urlencode the descriptor — produce exactly the recorded encodings. -/
theorem generate_authorization_fixed_vectors :
    ((primary_from_base64 "8F8xXXOptJxkblM1DBXW7a6NMI5oE8NnwPGYBmwxLCKfejOK7B7yhcCHMGvN3PBrlMLIOeol1Hv9RCdzAZR5sg==".toList).map
        (fun tok => generate_authorization tok .GET .Databases
          "dbs/MyDatabase/colls/MyCollection".toList (formatTimeRfc1123Gmt 1900 1 1 1 0 0)) =
      some "type%3Dmaster%26ver%3D1.0%26sig%3DQkz%2Fr%2B1N2%2BPEnNijxGbGB%2FADvLsLBQmZ7uBBMuIwf4I%3D".toList) ∧
    ((primary_from_base64 "dsZQi3KtZmCv1ljt3VNWNm7sQUF1y5rJfC6kv5JiwvW0EndXdDku/dkKBp8/ufDToSxL".toList).map
        (fun tok => generate_authorization tok .GET .Databases
          "dbs/ToDoList".toList (formatTimeRfc1123Gmt 2017 4 27 0 51 12)) =
      some "type%3Dmaster%26ver%3D1.0%26sig%3DKvBM8vONofkv3yKm%2F8zD9MEGlbu6jjHDJBp4E9c2ZZI%3D".toList) := by
  constructor
  · decide
  · decide

/-- C6: the fixed string-to-sign vector — verb `GET`, kind `Databases`, link
`dbs/MyDatabase/colls/MyCollection`, timestamp formatted from
1900-01-01T01:00:00Z — yields exactly the recorded five-line string. -/
theorem string_to_sign_fixed_vector :
    string_to_sign .GET .Databases "dbs/MyDatabase/colls/MyCollection".toList
        (formatTimeRfc1123Gmt 1900 1 1 1 0 0) =
      "get\ndbs\ndbs/MyDatabase/colls/MyCollection\nmon, 01 jan 1900 01:00:00 gmt\n\n".toList := by
  decide

/-- C8: a `Resource` token's opaque string passes into the descriptor
unmodified — the returned value is the form-urlencoding of
`type=resource&ver=1.0&sig=` followed by the token, with no HMAC applied. -/
theorem resource_token_signature_passthrough (t : Str) (m : Method) (rt : ResourceType)
    (link time : Str) :
    generate_authorization (.Resource t) m rt link time =
      formUrlEncodeBytes (utf8Encode ("type=resource&ver=1.0&sig=".toList ++ t)) := rfl

/-- The two copies of the keyword loop agree. -/
lemma resourceLinkLoop_copies_agree (p : Str) (L : List Str) :
    resourceLinkLoop p L = cosmos_client.resourceLinkLoop p L := by
  induction L with
  | nil => rfl
  | cons s rest ih =>
    simp only [resourceLinkLoop, cosmos_client.resourceLinkLoop]
    rw [ih]

/-- C10: the duplicated signing helpers of `authorization_policy.rs` and
`cosmos_client.rs` are extensionally equal, so the pipeline signing path and
the legacy `prepare_request` path compute identical signatures. -/
theorem pipeline_and_legacy_helpers_agree :
    (∀ u, generate_resource_link u = cosmos_client.generate_resource_link u) ∧
    (∀ (m : Method) (rt : ResourceType) (link time : Str),
        string_to_sign m rt link time = cosmos_client.string_to_sign m rt link time) ∧
    (∀ (s : Str) (key : List Nat),
        encode_str_to_sign s key = cosmos_client.encode_str_to_sign s key) ∧
    (∀ (tok : AuthorizationToken) (m : Method) (rt : ResourceType) (link time : Str),
        generate_authorization tok m rt link time =
          cosmos_client.generate_authorization tok m rt link time) := by
  have hsts : ∀ (m : Method) (rt : ResourceType) (link time : Str),
      string_to_sign m rt link time = cosmos_client.string_to_sign m rt link time := by
    intro m rt link time
    cases m <;> cases rt <;> rfl
  refine ⟨fun u => resourceLinkLoop_copies_agree u ENDING_STRINGS, hsts, fun s key => rfl,
    fun tok m rt link time => ?_⟩
  cases tok with
  | Primary key =>
    simp only [generate_authorization, cosmos_client.generate_authorization,
      encode_str_to_sign, cosmos_client.encode_str_to_sign, VERSION, cosmos_client.VERSION,
      hsts]
  | Resource key => rfl

/-- Counterexample to C5 as stated: for an extension method the first line of
the string-to-sign is the literal `"extension"`, not the lowercased verb. -/
theorem string_to_sign_extension_method_cex :
    string_to_sign (.extension "FOO".toList) .Databases [] [] ≠
      toLowercase (methodName (.extension "FOO".toList)) ++ '\n' ::
        resourceTypeKeyword .Databases ++ '\n' :: [] ++ '\n' :: toLowercase [] ++
        ['\n', '\n'] := by
  decide

/-- C5 (amended): for the nine named standard methods, `string_to_sign` is
the lowercased verb, the resource-kind keyword, the resource link and the
lowercased timestamp on successive lines with exactly two trailing newlines;
for every other (extension) method the first line is the literal
`"extension"`. -/
theorem string_to_sign_layout :
    (∀ (m : Method) (rt : ResourceType) (link time : Str),
        (∀ s, m ≠ .extension s) →
        string_to_sign m rt link time =
          toLowercase (methodName m) ++ '\n' :: resourceTypeKeyword rt ++ '\n' :: link ++
            '\n' :: toLowercase time ++ ['\n', '\n']) ∧
    (∀ (s : Str) (rt : ResourceType) (link time : Str),
        string_to_sign (.extension s) rt link time =
          "extension".toList ++ '\n' :: resourceTypeKeyword rt ++ '\n' :: link ++
            '\n' :: toLowercase time ++ ['\n', '\n']) := by
  constructor
  · intro m rt link time h
    cases m with
    | extension s => exact absurd rfl (h s)
    | GET => cases rt <;> rfl
    | PUT => cases rt <;> rfl
    | POST => cases rt <;> rfl
    | DELETE => cases rt <;> rfl
    | HEAD => cases rt <;> rfl
    | TRACE => cases rt <;> rfl
    | OPTIONS => cases rt <;> rfl
    | CONNECT => cases rt <;> rfl
    | PATCH => cases rt <;> rfl
  · intro s rt link time
    cases rt <;> rfl

/-- Witness for C5 (amended) at `GET` / `Databases` and at an extension
method. -/
theorem string_to_sign_layout_witness :
    ((∀ s, Method.GET ≠ .extension s) ∧
      string_to_sign .GET .Databases "dbs/x".toList "T".toList =
        toLowercase (methodName .GET) ++ '\n' :: resourceTypeKeyword .Databases ++
          '\n' :: "dbs/x".toList ++ '\n' :: toLowercase "T".toList ++ ['\n', '\n']) ∧
    string_to_sign (.extension "FOO".toList) .Databases "dbs/x".toList "T".toList =
      "extension".toList ++ '\n' :: resourceTypeKeyword .Databases ++
        '\n' :: "dbs/x".toList ++ '\n' :: toLowercase "T".toList ++ ['\n', '\n'] :=
  ⟨⟨(fun _ h => nomatch h),
    string_to_sign_layout.1 .GET .Databases "dbs/x".toList "T".toList (fun _ h => nomatch h)⟩,
   string_to_sign_layout.2 "FOO".toList .Databases "dbs/x".toList "T".toList⟩

/-- C4 (code divergence): `AuthorizationPolicy::send` canonicalizes
`path_and_query`, not the bare path — a request whose URI carries a query
string feeds the query into the resource link and hence the string-to-sign. -/
theorem canonicalized_path_includes_query :
    uriPathOfRequest ⟨.GET, ⟨"/dbs".toList, some "a=1".toList⟩, [], []⟩ = "dbs?a=1".toList ∧
    uriPathOfRequest ⟨.GET, ⟨"/dbs".toList, some "a=1".toList⟩, [], []⟩ ≠
      ("/dbs".toList).drop 1 ∧
    generate_resource_link "dbs?a=1".toList = "dbs?a=1".toList ∧
    generate_resource_link (("/dbs".toList).drop 1) = [] ∧
    string_to_sign .GET .Databases (generate_resource_link "dbs?a=1".toList) [] ≠
      string_to_sign .GET .Databases (generate_resource_link (("/dbs".toList).drop 1)) [] := by
  refine ⟨rfl, by decide, by decide, by decide, by decide⟩

/-! ## Header-map lemmas -/

lemma headersFilter_append_self (k v : Str) (hs : List (Str × Str)) :
    headersFilter k (headersAppend k v hs) = headersFilter k hs ++ [(k, v)] := by
  simp [headersFilter, headersAppend, List.filter_append]

lemma headersFilter_append_ne (k k2 v : Str) (h : k2 ≠ k) (hs : List (Str × Str)) :
    headersFilter k (headersAppend k2 v hs) = headersFilter k hs := by
  simp [headersFilter, headersAppend, List.filter_append, h]

lemma headersFilter_remove_self (k : Str) (hs : List (Str × Str)) :
    headersFilter k (headersRemove k hs) = [] := by
  simp only [headersFilter, headersRemove, List.filter_filter, Bool.and_not_self]
  exact List.filter_false hs

lemma headersFilter_remove_ne (k k2 : Str) (h : k2 ≠ k) (hs : List (Str × Str)) :
    headersFilter k (headersRemove k2 hs) = headersFilter k hs := by
  simp only [headersFilter, headersRemove, List.filter_filter]
  refine List.filter_congr (fun a _ => ?_)
  by_cases hak : a.1 = k
  · have h2 : (a.1 == k2) = false := by
      simp only [beq_eq_false_iff_ne]
      rw [hak]
      exact fun hh => h hh.symm
    simp [hak, h2]
    exact fun hh => h hh.symm
  · simp [hak]

/-- The effect of the remove-then-append header step on each header name. -/
lemma header_step_filters (req : Request) (now av : Str) :
    headersFilter HEADER_DATE (headersAppend AUTHORIZATION av
        (headersAppend HEADER_VERSION AZURE_VERSION (headersAppend HEADER_DATE now
          (headersRemove AUTHORIZATION (headersRemove HEADER_VERSION
            (headersRemove HEADER_DATE req.headers)))))) = [(HEADER_DATE, now)] ∧
    headersFilter HEADER_VERSION (headersAppend AUTHORIZATION av
        (headersAppend HEADER_VERSION AZURE_VERSION (headersAppend HEADER_DATE now
          (headersRemove AUTHORIZATION (headersRemove HEADER_VERSION
            (headersRemove HEADER_DATE req.headers)))))) = [(HEADER_VERSION, AZURE_VERSION)] ∧
    headersFilter AUTHORIZATION (headersAppend AUTHORIZATION av
        (headersAppend HEADER_VERSION AZURE_VERSION (headersAppend HEADER_DATE now
          (headersRemove AUTHORIZATION (headersRemove HEADER_VERSION
            (headersRemove HEADER_DATE req.headers)))))) = [(AUTHORIZATION, av)] ∧
    ∀ k, k ≠ HEADER_DATE → k ≠ HEADER_VERSION → k ≠ AUTHORIZATION →
      headersFilter k (headersAppend AUTHORIZATION av
        (headersAppend HEADER_VERSION AZURE_VERSION (headersAppend HEADER_DATE now
          (headersRemove AUTHORIZATION (headersRemove HEADER_VERSION
            (headersRemove HEADER_DATE req.headers)))))) = headersFilter k req.headers := by
  have hdv : HEADER_DATE ≠ HEADER_VERSION := by decide
  have hda : HEADER_DATE ≠ AUTHORIZATION := by decide
  have hva : HEADER_VERSION ≠ AUTHORIZATION := by decide
  refine ⟨?_, ?_, ?_, ?_⟩
  · rw [headersFilter_append_ne _ _ _ hda.symm, headersFilter_append_ne _ _ _ hdv.symm,
      headersFilter_append_self, headersFilter_remove_ne _ _ hda.symm,
      headersFilter_remove_ne _ _ hdv.symm, headersFilter_remove_self]
    rfl
  · rw [headersFilter_append_ne _ _ _ hva.symm, headersFilter_append_self,
      headersFilter_append_ne _ _ _ hdv, headersFilter_remove_ne _ _ hva.symm,
      headersFilter_remove_self]
    rfl
  · rw [headersFilter_append_self, headersFilter_append_ne _ _ _ hva,
      headersFilter_append_ne _ _ _ hda, headersFilter_remove_self]
    rfl
  · intro k hkd hkv hka
    rw [headersFilter_append_ne _ _ _ (fun h => hka h.symm),
      headersFilter_append_ne _ _ _ (fun h => hkv h.symm),
      headersFilter_append_ne _ _ _ (fun h => hkd h.symm),
      headersFilter_remove_ne _ _ (fun h => hka h.symm),
      headersFilter_remove_ne _ _ (fun h => hkv h.symm),
      headersFilter_remove_ne _ _ (fun h => hkd h.symm)]

/-- Characterization of a delegating `AuthorizationPolicy::send`: the context
must hold a `ResourceType`, and the forwarded request is the input request
with exactly the remove-then-append header rewrite applied. -/
lemma send_delegated_spec (self : AuthorizationPolicy) (ctx : Context) (req : Request)
    (now : Str) (n : Nat) (req' : Request)
    (h : AuthorizationPolicy.send self ctx req now n = .delegated req') :
    ∃ rt, ctx.get_from_bag "resource_type".toList = some (.resourceType rt) ∧
      req' = { req with
                headers :=
                  headersAppend AUTHORIZATION
                    (generate_authorization self.authorization_token req.method rt
                      (generate_resource_link (uriPathOfRequest req)) now)
                    (headersAppend HEADER_VERSION AZURE_VERSION
                      (headersAppend HEADER_DATE now
                        (headersRemove AUTHORIZATION
                          (headersRemove HEADER_VERSION
                            (headersRemove HEADER_DATE req.headers))))) } := by
  unfold AuthorizationPolicy.send at h
  by_cases hn : n = 0
  · rw [if_pos hn] at h
    exact nomatch h
  · rw [if_neg hn] at h
    rcases hbag : ctx.get_from_bag "resource_type".toList with _ | v
    · rw [hbag] at h
      exact nomatch h
    · rcases v with rt | t
      · rw [hbag] at h
        simp only [] at h
        rcases htv : headerValueFromStr now with _ | timeVal
        · rw [htv] at h
          exact nomatch h
        · rw [htv] at h
          have htv2 : timeVal = now := by
            unfold headerValueFromStr at htv
            split at htv
            · exact (Option.some.inj htv).symm
            · exact nomatch htv
          subst timeVal
          rcases hav : headerValueFromStr (generate_authorization self.authorization_token
              req.method rt (generate_resource_link (uriPathOfRequest req)) now)
            with _ | authVal
          · rw [hav] at h
            exact nomatch h
          · rw [hav] at h
            have hav2 : authVal = generate_authorization self.authorization_token req.method rt
                (generate_resource_link (uriPathOfRequest req)) now := by
              unfold headerValueFromStr at hav
              split at hav
              · exact (Option.some.inj hav).symm
              · exact nomatch hav
            subst authVal
            injection h with h2
            exact ⟨rt, rfl, h2.symm⟩
      · rw [hbag] at h
        exact nomatch h

/-- C7: after the header step of a delegating `AuthorizationPolicy::send`,
the request carries exactly one date header (equal to the timestamp), one
API-version header (the fixed `2018-12-31` constant) and one authorization
header (the encoded descriptor); every other header, the method, the URI and
the body are unchanged. -/
theorem authorization_policy_header_frame (self : AuthorizationPolicy) (ctx : Context)
    (req : Request) (now : Str) (n : Nat) (req' : Request)
    (h : AuthorizationPolicy.send self ctx req now n = .delegated req') :
    req'.method = req.method ∧ req'.uri = req.uri ∧ req'.body = req.body ∧
    headersFilter HEADER_DATE req'.headers = [(HEADER_DATE, now)] ∧
    headersFilter HEADER_VERSION req'.headers = [(HEADER_VERSION, AZURE_VERSION)] ∧
    (∃ rt, ctx.get_from_bag "resource_type".toList = some (.resourceType rt) ∧
      headersFilter AUTHORIZATION req'.headers =
        [(AUTHORIZATION, generate_authorization self.authorization_token req.method rt
            (generate_resource_link (uriPathOfRequest req)) now)]) ∧
    (∀ k, k ≠ HEADER_DATE → k ≠ HEADER_VERSION → k ≠ AUTHORIZATION →
      headersFilter k req'.headers = headersFilter k req.headers) := by
  obtain ⟨rt, hbag, hreq⟩ := send_delegated_spec self ctx req now n req' h
  subst hreq
  obtain ⟨f1, f2, f3, f4⟩ := header_step_filters req now
    (generate_authorization self.authorization_token req.method rt
      (generate_resource_link (uriPathOfRequest req)) now)
  exact ⟨rfl, rfl, rfl, f1, f2, ⟨rt, hbag, f3⟩, f4⟩

/-- Witness for C7 at a concrete request: one stale date header is replaced,
the unrelated header `k` survives untouched. -/
theorem authorization_policy_header_frame_witness :
    (AuthorizationPolicy.send ⟨.Resource "t".toList⟩
        [("resource_type".toList, .resourceType .Databases)]
        ⟨.GET, ⟨"/dbs".toList, none⟩,
          [(HEADER_DATE, "old".toList), ("k".toList, "v".toList)], []⟩
        "Mon, 01 Jan 1900 01:00:00 GMT".toList 1 =
      .delegated
        ⟨.GET, ⟨"/dbs".toList, none⟩,
          [("k".toList, "v".toList),
           (HEADER_DATE, "Mon, 01 Jan 1900 01:00:00 GMT".toList),
           (HEADER_VERSION, AZURE_VERSION),
           (AUTHORIZATION, "type%3Dresource%26ver%3D1.0%26sig%3Dt".toList)], []⟩) ∧
    (let req' : Request :=
      ⟨.GET, ⟨"/dbs".toList, none⟩,
        [("k".toList, "v".toList),
         (HEADER_DATE, "Mon, 01 Jan 1900 01:00:00 GMT".toList),
         (HEADER_VERSION, AZURE_VERSION),
         (AUTHORIZATION, "type%3Dresource%26ver%3D1.0%26sig%3Dt".toList)], []⟩
     let req : Request :=
      ⟨.GET, ⟨"/dbs".toList, none⟩,
        [(HEADER_DATE, "old".toList), ("k".toList, "v".toList)], []⟩
     req'.method = req.method ∧ req'.uri = req.uri ∧ req'.body = req.body ∧
     headersFilter HEADER_DATE req'.headers =
       [(HEADER_DATE, "Mon, 01 Jan 1900 01:00:00 GMT".toList)] ∧
     headersFilter HEADER_VERSION req'.headers = [(HEADER_VERSION, AZURE_VERSION)] ∧
     (∃ rt, Context.get_from_bag [("resource_type".toList, .resourceType .Databases)]
          "resource_type".toList = some (.resourceType rt) ∧
       headersFilter AUTHORIZATION req'.headers =
         [(AUTHORIZATION, generate_authorization (.Resource "t".toList) req.method rt
             (generate_resource_link (uriPathOfRequest req))
             "Mon, 01 Jan 1900 01:00:00 GMT".toList)]) ∧
     (∀ k, k ≠ HEADER_DATE → k ≠ HEADER_VERSION → k ≠ AUTHORIZATION →
       headersFilter k req'.headers = headersFilter k req.headers)) := by
  have h : AuthorizationPolicy.send ⟨.Resource "t".toList⟩
      [("resource_type".toList, .resourceType .Databases)]
      ⟨.GET, ⟨"/dbs".toList, none⟩,
        [(HEADER_DATE, "old".toList), ("k".toList, "v".toList)], []⟩
      "Mon, 01 Jan 1900 01:00:00 GMT".toList 1 =
      .delegated
        ⟨.GET, ⟨"/dbs".toList, none⟩,
          [("k".toList, "v".toList),
           (HEADER_DATE, "Mon, 01 Jan 1900 01:00:00 GMT".toList),
           (HEADER_VERSION, AZURE_VERSION),
           (AUTHORIZATION, "type%3Dresource%26ver%3D1.0%26sig%3Dt".toList)], []⟩ := by
    decide
  exact ⟨h, authorization_policy_header_frame _ _ _ _ _ _ h⟩

/-- C9: the signing step is deterministic — two runs with the same token,
resource kind, method, URI and timestamp produce byte-identical date,
API-version and authorization header values, whatever the rest of the two
requests and contexts. -/
theorem signing_deterministic (self : AuthorizationPolicy) (ctx1 ctx2 : Context)
    (req1 req2 : Request) (now : Str) (n1 n2 : Nat) (req1' req2' : Request)
    (hctx : ctx1.get_from_bag "resource_type".toList =
      ctx2.get_from_bag "resource_type".toList)
    (hm : req1.method = req2.method) (hu : req1.uri = req2.uri)
    (h1 : AuthorizationPolicy.send self ctx1 req1 now n1 = .delegated req1')
    (h2 : AuthorizationPolicy.send self ctx2 req2 now n2 = .delegated req2') :
    headersFilter HEADER_DATE req1'.headers = headersFilter HEADER_DATE req2'.headers ∧
    headersFilter HEADER_VERSION req1'.headers =
      headersFilter HEADER_VERSION req2'.headers ∧
    headersFilter AUTHORIZATION req1'.headers =
      headersFilter AUTHORIZATION req2'.headers := by
  obtain ⟨rt1, hbag1, hreq1⟩ := send_delegated_spec self ctx1 req1 now n1 req1' h1
  obtain ⟨rt2, hbag2, hreq2⟩ := send_delegated_spec self ctx2 req2 now n2 req2' h2
  have hrt : rt1 = rt2 := by
    rw [hbag1, hbag2] at hctx
    exact BagValue.resourceType.inj (Option.some.inj hctx)
  have hpath : uriPathOfRequest req1 = uriPathOfRequest req2 := by
    unfold uriPathOfRequest
    rw [hu]
  have hauth : generate_authorization self.authorization_token req1.method rt1
      (generate_resource_link (uriPathOfRequest req1)) now =
      generate_authorization self.authorization_token req2.method rt2
        (generate_resource_link (uriPathOfRequest req2)) now := by
    rw [hm, hrt, hpath]
  subst hreq1
  subst hreq2
  obtain ⟨a1, b1, c1, -⟩ := header_step_filters req1 now
    (generate_authorization self.authorization_token req1.method rt1
      (generate_resource_link (uriPathOfRequest req1)) now)
  obtain ⟨a2, b2, c2, -⟩ := header_step_filters req2 now
    (generate_authorization self.authorization_token req2.method rt2
      (generate_resource_link (uriPathOfRequest req2)) now)
  refine ⟨a1.trans a2.symm, b1.trans b2.symm, c1.trans ?_⟩
  rw [hauth]
  exact c2.symm

/-- Witness for C9: two requests and contexts differing in headers, body and
bag clutter but agreeing on token, kind, method, URI and timestamp get
identical signed header values. -/
theorem signing_deterministic_witness :
    (Context.get_from_bag [("resource_type".toList, .resourceType .Databases)]
        "resource_type".toList =
      Context.get_from_bag
        [("x".toList, .other 0), ("resource_type".toList, .resourceType .Databases)]
        "resource_type".toList) ∧
    (Method.GET = Method.GET) ∧
    (Uri.mk "/dbs".toList none = Uri.mk "/dbs".toList none) ∧
    (AuthorizationPolicy.send ⟨.Resource "t".toList⟩
        [("resource_type".toList, .resourceType .Databases)]
        ⟨.GET, ⟨"/dbs".toList, none⟩, [], []⟩
        "Mon, 01 Jan 1900 01:00:00 GMT".toList 1 =
      .delegated ⟨.GET, ⟨"/dbs".toList, none⟩,
        [(HEADER_DATE, "Mon, 01 Jan 1900 01:00:00 GMT".toList),
         (HEADER_VERSION, AZURE_VERSION),
         (AUTHORIZATION, "type%3Dresource%26ver%3D1.0%26sig%3Dt".toList)], []⟩) ∧
    (AuthorizationPolicy.send ⟨.Resource "t".toList⟩
        [("x".toList, .other 0), ("resource_type".toList, .resourceType .Databases)]
        ⟨.GET, ⟨"/dbs".toList, none⟩, [("a".toList, "b".toList)], [1]⟩
        "Mon, 01 Jan 1900 01:00:00 GMT".toList 2 =
      .delegated ⟨.GET, ⟨"/dbs".toList, none⟩,
        [("a".toList, "b".toList),
         (HEADER_DATE, "Mon, 01 Jan 1900 01:00:00 GMT".toList),
         (HEADER_VERSION, AZURE_VERSION),
         (AUTHORIZATION, "type%3Dresource%26ver%3D1.0%26sig%3Dt".toList)], [1]⟩) ∧
    (headersFilter HEADER_DATE
        [(HEADER_DATE, "Mon, 01 Jan 1900 01:00:00 GMT".toList),
         (HEADER_VERSION, AZURE_VERSION),
         (AUTHORIZATION, "type%3Dresource%26ver%3D1.0%26sig%3Dt".toList)] =
      headersFilter HEADER_DATE
        [("a".toList, "b".toList),
         (HEADER_DATE, "Mon, 01 Jan 1900 01:00:00 GMT".toList),
         (HEADER_VERSION, AZURE_VERSION),
         (AUTHORIZATION, "type%3Dresource%26ver%3D1.0%26sig%3Dt".toList)]) ∧
    (headersFilter AUTHORIZATION
        [(HEADER_DATE, "Mon, 01 Jan 1900 01:00:00 GMT".toList),
         (HEADER_VERSION, AZURE_VERSION),
         (AUTHORIZATION, "type%3Dresource%26ver%3D1.0%26sig%3Dt".toList)] =
      headersFilter AUTHORIZATION
        [("a".toList, "b".toList),
         (HEADER_DATE, "Mon, 01 Jan 1900 01:00:00 GMT".toList),
         (HEADER_VERSION, AZURE_VERSION),
         (AUTHORIZATION, "type%3Dresource%26ver%3D1.0%26sig%3Dt".toList)]) := by
  have ha : AuthorizationPolicy.send ⟨.Resource "t".toList⟩
      [("resource_type".toList, .resourceType .Databases)]
      ⟨.GET, ⟨"/dbs".toList, none⟩, [], []⟩
      "Mon, 01 Jan 1900 01:00:00 GMT".toList 1 =
      .delegated ⟨.GET, ⟨"/dbs".toList, none⟩,
        [(HEADER_DATE, "Mon, 01 Jan 1900 01:00:00 GMT".toList),
         (HEADER_VERSION, AZURE_VERSION),
         (AUTHORIZATION, "type%3Dresource%26ver%3D1.0%26sig%3Dt".toList)], []⟩ := by
    decide
  have hb : AuthorizationPolicy.send ⟨.Resource "t".toList⟩
      [("x".toList, .other 0), ("resource_type".toList, .resourceType .Databases)]
      ⟨.GET, ⟨"/dbs".toList, none⟩, [("a".toList, "b".toList)], [1]⟩
      "Mon, 01 Jan 1900 01:00:00 GMT".toList 2 =
      .delegated ⟨.GET, ⟨"/dbs".toList, none⟩,
        [("a".toList, "b".toList),
         (HEADER_DATE, "Mon, 01 Jan 1900 01:00:00 GMT".toList),
         (HEADER_VERSION, AZURE_VERSION),
         (AUTHORIZATION, "type%3Dresource%26ver%3D1.0%26sig%3Dt".toList)], [1]⟩ := by
    decide
  have hfilters := signing_deterministic ⟨.Resource "t".toList⟩
    [("resource_type".toList, .resourceType .Databases)]
    [("x".toList, .other 0), ("resource_type".toList, .resourceType .Databases)]
    ⟨.GET, ⟨"/dbs".toList, none⟩, [], []⟩
    ⟨.GET, ⟨"/dbs".toList, none⟩, [("a".toList, "b".toList)], [1]⟩
    "Mon, 01 Jan 1900 01:00:00 GMT".toList 1 2 _ _ (by decide) rfl rfl ha hb
  exact ⟨by decide, rfl, rfl, ha, hb, hfilters.1, hfilters.2.2⟩
